import Mathlib

/-!
Verification development for the ndp-sim bitstream compiler.

Shallow embedding of the Python sources under `src/bitstream/`:
`bit.py` (the `Bit` bit-vector), `config/mapper.py` (resource mapper,
placement constraints, annealing post-processing), `config/base.py`
(field encoding and emptiness), `parse.py` (assembler chunking), and
`index.py` (node references).  Python strings are modelled as `String`
(or `List Char` where structural reasoning over names is needed),
unbounded Python ints as `Int`/`Nat`, fallible code as `Except String`.
-/

/-! ## Bit (src/bitstream/bit.py) -/

/-- The `Bit` dataclass: an arbitrary-width bit-vector.  `value` is stored
normalized (`int(self.value) & mask` in `__post_init__`), so a well-formed
`Bit` has `value < 2 ^ width`. -/
structure Bit where
  value : Nat
  width : Nat
  deriving DecidableEq

/-- Construction through `Bit.__post_init__` (bit.py:28-34): `width < 1`
raises `ValueError`; the value is reduced into `[0, 2^width)` (the Python
`int(value) & mask` on a possibly negative int is the mathematical mod). -/
def bit_make (value : Int) (width : Nat) : Except String Bit :=
  if width < 1 then .error "width must be >= 1"
  else .ok ⟨(value % ((2 : Int) ^ width)).toNat, width⟩

/-- Core of the slice branch of `Bit.__getitem__` (bit.py:114-118), after
negative bounds have been wrapped: out-of-range bounds raise `IndexError`,
`new_val = (value >> start) & ((1 << new_width) - 1)` when `new_width > 0`
else `0`, and the result is built through the `Bit` constructor (so a
zero-width slice raises `ValueError` in `__post_init__`). -/
def slice_core (b : Bit) (start stop : Int) : Except String Bit :=
  if ¬(0 ≤ start ∧ start ≤ stop ∧ stop ≤ (b.width : Int)) then
    .error "slice out of range"
  else
    bit_make
      ((if 0 < (stop - start).toNat then
        (b.value >>> start.toNat) &&& (2 ^ (stop - start).toNat - 1)
      else 0 : Nat) : Int)
      (stop - start).toNat

/-- The slice branch of `Bit.__getitem__` (bit.py:102-118) with the default
step 1: negative bounds wrap by `width`, then `slice_core`. -/
def getitem_slice (b : Bit) (start stop : Int) : Except String Bit :=
  slice_core b (if start < 0 then start + b.width else start)
    (if stop < 0 then stop + b.width else stop)

/-- `Bit.concat` (bit.py:199-208): `self` supplies the upper (MSB) bits, the
argument the lower bits; result width is the sum, built through the `Bit`
constructor. -/
def bit_concat (b other : Bit) : Except String Bit :=
  bit_make (((b.value <<< other.width) ||| other.value : Nat) : Int) (b.width + other.width)

/-- Python `int.bit_length()` for a natural number. -/
def nat_bit_length (n : Nat) : Nat := if n = 0 then 0 else Nat.log2 n + 1

/-- Digits of `int(bin_str, 2)` where `bin_str` lists binary digits MSB
first (bit.py:61-64). -/
def digits_value (vals : List Nat) : Nat :=
  vals.foldl (fun acc v => acc * 2 + v) 0

/-- `Bit.from_list` (bit.py:51-74) restricted to non-negative elements (the
repository only feeds it node indices and 0/1 digits): an empty list yields
`Bit(0, 1)`; a 0/1 list is read as binary digits; otherwise elements are
packed into fixed-width fields. -/
def from_list (vals : List Nat) (bitsPerElem : Option Nat) : Except String Bit :=
  if vals.isEmpty then bit_make 0 1
  else if vals.all (fun v => v == 0 || v == 1) then
    bit_make (digits_value vals) vals.length
  else
    let bpe := match bitsPerElem with
      | some b => b
      | none => max 1 (vals.foldl (fun m v => max m (nat_bit_length v)) 0)
    let intVal : Nat := vals.foldl (fun acc v => (acc <<< bpe) ||| v) (0 : Nat)
    bit_make intVal (bpe * vals.length)

/-! ### Claims C3 and C8: slice/concat and `from_list []` -/

lemma bit_make_nat (n w : Nat) (hw : 0 < w) : bit_make (n : Int) w = .ok ⟨n % 2 ^ w, w⟩ := by
  rw [bit_make, if_neg (by omega)]
  have h : ((n : Int) % ((2 : Int) ^ w)) = ((n % 2 ^ w : Nat) : Int) := by push_cast; rfl
  rw [h, Int.toNat_natCast]

lemma slice_low (b : Bit) (k : Nat) (h0 : 0 < k) (hk : k ≤ b.width) :
    getitem_slice b 0 (k : Int) = .ok ⟨b.value &&& (2 ^ k - 1), k⟩ := by
  have hnn : ¬((k : Int) < 0) := by omega
  have h00 : ¬((0 : Int) < 0) := by omega
  rw [getitem_slice, if_neg h00, if_neg hnn, slice_core,
    if_neg (not_not_intro ⟨le_refl 0, by omega, by omega⟩)]
  simp only [Int.sub_zero, Int.toNat_natCast, Int.toNat_zero, Nat.shiftRight_zero]
  rw [if_pos h0, bit_make_nat _ _ h0]
  have : b.value &&& (2 ^ k - 1) < 2 ^ k := by
    rw [Nat.and_pow_two_sub_one_eq_mod]; exact Nat.mod_lt _ (Nat.two_pow_pos k)
  rw [Nat.mod_eq_of_lt this]

lemma slice_high (b : Bit) (k : Nat) (hk : k < b.width) :
    getitem_slice b (k : Int) (b.width : Int) =
      .ok ⟨(b.value >>> k) &&& (2 ^ (b.width - k) - 1), b.width - k⟩ := by
  have hnn : ¬((k : Int) < 0) := by omega
  have hWn : ¬((b.width : Int) < 0) := by omega
  have hsub : ((b.width : Int) - (k : Int)).toNat = b.width - k := by omega
  rw [getitem_slice, if_neg hnn, if_neg hWn, slice_core,
    if_neg (not_not_intro ⟨by omega, by omega, by omega⟩), hsub]
  simp only [Int.toNat_natCast]
  rw [if_pos (by omega), bit_make_nat _ _ (by omega)]
  have : (b.value >>> k) &&& (2 ^ (b.width - k) - 1) < 2 ^ (b.width - k) := by
    rw [Nat.and_pow_two_sub_one_eq_mod]; exact Nat.mod_lt _ (Nat.two_pow_pos _)
  rw [Nat.mod_eq_of_lt this]

lemma slice_zero_width (b : Bit) (k : Nat) (hk : k ≤ b.width) :
    getitem_slice b (k : Int) (k : Int) = .error "width must be >= 1" := by
  have hnn : ¬((k : Int) < 0) := by omega
  rw [getitem_slice, if_neg hnn, slice_core,
    if_neg (not_not_intro ⟨by omega, by omega, by omega⟩)]
  simp [bit_make]

lemma recombine (v W k : Nat) (hv : v < 2 ^ W) (hk : k ≤ W) :
    ((((v >>> k) &&& (2 ^ (W - k) - 1)) <<< k) ||| (v &&& (2 ^ k - 1))) = v := by
  rw [Nat.and_pow_two_sub_one_eq_mod, Nat.and_pow_two_sub_one_eq_mod,
    Nat.shiftRight_eq_div_pow, Nat.shiftLeft_eq]
  have hdiv : v / 2 ^ k < 2 ^ (W - k) := by
    apply Nat.div_lt_of_lt_mul
    calc v < 2 ^ W := hv
    _ = 2 ^ k * 2 ^ (W - k) := by rw [← pow_add, Nat.add_sub_cancel' hk]
  rw [Nat.mod_eq_of_lt hdiv, mul_comm,
    ← Nat.mul_add_lt_is_or (Nat.mod_lt _ (Nat.two_pow_pos k)) (v / 2 ^ k),
    Nat.div_add_mod]

/-- Claim C3 (amended): slicing and concatenation invert each other only in
the high-then-low orientation and only at interior split points: for a
well-formed `Bit(v, W)` and `0 < k < W`, `B[k:W].concat(B[0:k]) == B`
(`concat` puts `self` in the high bits); at `k = 0` or `k = W` the
zero-width slice raises `ValueError` (`width must be >= 1`).  The
orientation of the original claim, `B[0:k].concat(B[k:W])`, swaps the two
halves (see the counterexample). -/
theorem C3_slice_concat_amended (v W k : Nat) (hv : v < 2 ^ W) (h0 : 0 < k) (hk : k < W) :
    ((do
      let hi ← getitem_slice ⟨v, W⟩ (k : Int) (W : Int)
      let lo ← getitem_slice ⟨v, W⟩ 0 (k : Int)
      bit_concat hi lo) : Except String Bit) = .ok ⟨v, W⟩ ∧
    getitem_slice ⟨v, W⟩ 0 0 = .error "width must be >= 1" ∧
    getitem_slice ⟨v, W⟩ (W : Int) (W : Int) = .error "width must be >= 1" := by
  refine ⟨?_, ?_, slice_zero_width ⟨v, W⟩ W (le_refl W)⟩
  · rw [slice_high ⟨v, W⟩ k hk, slice_low ⟨v, W⟩ k h0 (le_of_lt hk)]
    show bit_concat _ _ = _
    rw [bit_concat]
    simp only
    rw [recombine v W k hv (le_of_lt hk), Nat.sub_add_cancel (le_of_lt hk),
      bit_make_nat v W (by omega), Nat.mod_eq_of_lt hv]
  · have := slice_zero_width ⟨v, W⟩ 0 (by omega)
    simpa using this

/-- Witness for C3: the amended identity at `B = Bit(2, 2)`, `k = 1`. -/
theorem C3_slice_concat_amended_witness :
    ((do
      let hi ← getitem_slice ⟨2, 2⟩ (1 : Int) (2 : Int)
      let lo ← getitem_slice ⟨2, 2⟩ 0 (1 : Int)
      bit_concat hi lo) : Except String Bit) = .ok ⟨2, 2⟩ :=
  (C3_slice_concat_amended 2 2 1 (by decide) (by decide) (by decide)).1

/-- Counterexample to claim C3 as stated: for `B = Bit(0b10, 2)` and split
point `k = 1`, `B[0:1].concat(B[1:2])` is `Bit(0b01, 2) ≠ B` (the low slice
lands in the high bits), and at `k = 0` the slice `B[0:0]` does not even
return a `Bit` — it raises `ValueError` from the width check. -/
theorem C3_slice_concat_counterexample :
    ((do
      let lo ← getitem_slice ⟨2, 2⟩ 0 1
      let hi ← getitem_slice ⟨2, 2⟩ 1 2
      bit_concat lo hi) : Except String Bit) = .ok ⟨1, 2⟩ ∧
    (⟨1, 2⟩ : Bit) ≠ ⟨2, 2⟩ ∧
    getitem_slice ⟨2, 2⟩ 0 0 = .error "width must be >= 1" := by
  refine ⟨rfl, by decide, rfl⟩

/-- Claim C8: `Bit.from_list` on an empty list succeeds with value 0 and
width 1 (bit.py:58-59), for any `bits_per_elem` argument; it neither fails
nor produces a zero-width vector. -/
theorem C8_from_list_empty :
    from_list [] none = .ok ⟨0, 1⟩ ∧ from_list [] (some 5) = .ok ⟨0, 1⟩ ∧
    from_list [] (some 0) = .ok ⟨0, 1⟩ := by
  refine ⟨rfl, rfl, rfl⟩

/-! ## Placement constraints (src/bitstream/config/mapper.py, Mapper.Constraint
subclasses).  Constraint types and indices come from `parse_resource`; all
penalties in the source are floats holding non-negative whole numbers, so
they are modelled as `Nat`. -/

/-- Python `abs(a - b)` on two non-negative ints. -/
def py_abs_sub (a b : Nat) : Nat := ((a : Int) - (b : Int)).natAbs

/-- `Mapper.LCtoLCConstraint.check` (mapper.py:285-302). -/
def lc_to_lc_check (srcType : String) (srcIdx : Nat) (dstType : String) (dstIdx : Nat) : Bool :=
  if srcType = "LC" ∧ dstType = "LC" then
    let srcRow := srcIdx / 8
    let srcCol := srcIdx % 8
    let dstRow := dstIdx / 8
    let dstCol := dstIdx % 8
    if dstRow = 0 ∧ srcRow = 1 then false
    else if srcRow = dstRow then py_abs_sub dstCol srcCol = 1 ∨ py_abs_sub dstCol srcCol = 2
    else if py_abs_sub srcRow dstRow = 1 then py_abs_sub dstCol srcCol ≤ 2
    else false
  else true

/-- `Mapper.LCtoLCConstraint.penalty` (mapper.py:304-318): zero when the
check passes, otherwise the Manhattan-style distance
`abs(src_row - dst_row) * 8 + abs(src_col - dst_col)`. -/
def lc_to_lc_penalty (srcType : String) (srcIdx : Nat) (dstType : String) (dstIdx : Nat) : Nat :=
  if srcType = "LC" ∧ dstType = "LC" then
    if lc_to_lc_check srcType srcIdx dstType dstIdx then 0
    else py_abs_sub (srcIdx / 8) (dstIdx / 8) * 8 + py_abs_sub (srcIdx % 8) (dstIdx % 8)
  else 0

/-- `Mapper.LCtoROWLCConstraint.check` (mapper.py:326-332). -/
def lc_to_rowlc_check (srcType : String) (srcIdx : Nat) (dstType : String) (dstIdx : Nat) : Bool :=
  if srcType = "LC" ∧ dstType = "ROW_LC" then
    py_abs_sub dstIdx (srcIdx % 8 / 2) ≤ 2
  else true

/-- `Mapper.LCtoROWLCConstraint.penalty` (mapper.py:334-340): always the
distance `abs(dst_idx - src_col // 2)`, even when the check passes. -/
def lc_to_rowlc_penalty (srcType : String) (srcIdx : Nat) (dstType : String) (dstIdx : Nat) : Nat :=
  if srcType = "LC" ∧ dstType = "ROW_LC" then py_abs_sub dstIdx (srcIdx % 8 / 2) else 0

/-- `Mapper.LCtoStreamConstraint.check` — the second definition at
mapper.py:463-468, which shadows the first (mapper.py:342-363) because both
class bodies bind the same attribute name. -/
def lc_to_stream_check (srcType : String) (srcIdx : Nat) (dstType : String) (dstIdx : Nat) : Bool :=
  if srcType = "LC" ∧ dstType = "STREAM" then
    py_abs_sub dstIdx (srcIdx % 8 / 2) = 0 ∨ py_abs_sub dstIdx (srcIdx % 8 / 2) = 1
  else true

/-- `Mapper.LCtoStreamConstraint.penalty` (mapper.py:470-477, the shadowing
second definition). -/
def lc_to_stream_penalty (srcType : String) (srcIdx : Nat) (dstType : String) (dstIdx : Nat) : Nat :=
  if srcType = "LC" ∧ dstType = "STREAM" then
    let d := py_abs_sub dstIdx (srcIdx % 8 / 2)
    if d = 0 ∨ d = 1 then 0 else d - 1
  else 0

/-- `Mapper.PEtoLCConstraint.check` (mapper.py:377-394). -/
def pe_to_lc_check (srcType : String) (srcIdx : Nat) (dstType : String) (dstIdx : Nat) : Bool :=
  if srcType = "PE" ∧ dstType = "LC" then
    if dstIdx / 8 ≠ 0 then false else py_abs_sub (dstIdx % 8) srcIdx ≤ 1
  else if srcType = "LC" ∧ dstType = "PE" then
    if srcIdx / 8 ≠ 0 then false else py_abs_sub (srcIdx % 8) dstIdx ≤ 1
  else true

/-- `Mapper.PEtoLCConstraint.penalty` (mapper.py:396-419): 100 for a
second-row LC endpoint, otherwise 0 within distance 1 and the distance
beyond that. -/
def pe_to_lc_penalty (srcType : String) (srcIdx : Nat) (dstType : String) (dstIdx : Nat) : Nat :=
  if srcType = "PE" ∧ dstType = "LC" then
    if dstIdx / 8 ≠ 0 then 100
    else if py_abs_sub (dstIdx % 8) srcIdx ≤ 1 then 0 else py_abs_sub (dstIdx % 8) srcIdx
  else if srcType = "LC" ∧ dstType = "PE" then
    if srcIdx / 8 ≠ 0 then 100
    else if py_abs_sub (srcIdx % 8) dstIdx ≤ 1 then 0 else py_abs_sub (srcIdx % 8) dstIdx
  else 0

/-- `Mapper.PEtoPEConstraint.check` (mapper.py:423-426): distance 1 or 2. -/
def pe_to_pe_check (srcType : String) (srcIdx : Nat) (dstType : String) (dstIdx : Nat) : Bool :=
  if srcType = "PE" ∧ dstType = "PE" then
    py_abs_sub dstIdx srcIdx = 1 ∨ py_abs_sub dstIdx srcIdx = 2
  else true

/-- `Mapper.PEtoPEConstraint.penalty` (mapper.py:428-434): zero at distance
1 or 2, else `max(0, d - 2)` (`Nat` subtraction). -/
def pe_to_pe_penalty (srcType : String) (srcIdx : Nat) (dstType : String) (dstIdx : Nat) : Nat :=
  if srcType = "PE" ∧ dstType = "PE" then
    let d := py_abs_sub dstIdx srcIdx
    if d = 1 ∨ d = 2 then 0 else d - 2
  else 0

/-- `Mapper.PEtoStreamConstraint.check` (mapper.py:441-448). -/
def pe_to_stream_check (srcType : String) (srcIdx : Nat) (dstType : String) (dstIdx : Nat) : Bool :=
  if srcType = "PE" ∧ dstType = "STREAM" then
    py_abs_sub dstIdx (srcIdx / 2) = 0 ∨ py_abs_sub dstIdx (srcIdx / 2) = 1
  else true

/-- `Mapper.PEtoStreamConstraint.penalty` (mapper.py:450-457). -/
def pe_to_stream_penalty (srcType : String) (srcIdx : Nat) (dstType : String) (dstIdx : Nat) : Nat :=
  if srcType = "PE" ∧ dstType = "STREAM" then
    let d := py_abs_sub dstIdx (srcIdx / 2)
    if d = 0 ∨ d = 1 then 0 else d - 1
  else 0

/-- `Mapper.ROWLCtoColLCConstraint.check` (mapper.py:485-492). -/
def rowlc_to_collc_check (srcType : String) (srcIdx : Nat) (dstType : String) (dstIdx : Nat) : Bool :=
  if srcType = "ROW_LC" ∧ dstType = "COL_LC" then srcIdx = dstIdx
  else if dstType = "COL_LC" ∧ srcType ≠ "ROW_LC" then false
  else true

/-- `Mapper.ROWLCtoColLCConstraint.penalty` (mapper.py:494-501). -/
def rowlc_to_collc_penalty (srcType : String) (srcIdx : Nat) (dstType : String) (dstIdx : Nat) : Nat :=
  if srcType = "ROW_LC" ∧ dstType = "COL_LC" then
    if srcIdx = dstIdx then 0 else 10000
  else if dstType = "COL_LC" ∧ srcType ≠ "ROW_LC" then 10000
  else 0

/-- Sum of `constraint.penalty` over `self.constraints` in list order
(mapper.py:551-560, 621-622): `LCtoStreamConstraint` is instantiated twice,
so its penalty is counted twice. -/
def pair_penalty (srcType : String) (srcIdx : Nat) (dstType : String) (dstIdx : Nat) : Nat :=
  lc_to_lc_penalty srcType srcIdx dstType dstIdx +
  lc_to_rowlc_penalty srcType srcIdx dstType dstIdx +
  lc_to_stream_penalty srcType srcIdx dstType dstIdx +
  pe_to_lc_penalty srcType srcIdx dstType dstIdx +
  pe_to_pe_penalty srcType srcIdx dstType dstIdx +
  pe_to_stream_penalty srcType srcIdx dstType dstIdx +
  lc_to_stream_penalty srcType srcIdx dstType dstIdx +
  rowlc_to_collc_penalty srcType srcIdx dstType dstIdx

/-- `Mapper.parse_resource` (mapper.py:98-120): `READ_STREAM*` and
`WRITE_STREAM*` collapse to the unified `STREAM` type (write streams offset
by 3); otherwise the alphabetic characters form the type (so `ROW_LC2`
parses as type `ROWLC` — `_` is not alphabetic) and the digit characters the
index, defaulting to 0.  The stream-suffix `int(...)` raises on a non-digit
suffix.  `py_int_digits` is Python `int(str)` on the digit-only strings this
program feeds it (no sign/whitespace forms arise from resource names). -/
def py_int_digits (cs : List Char) : Option Nat :=
  if cs ≠ [] ∧ cs.all Char.isDigit then
    some (cs.foldl (fun a c => a * 10 + (c.toNat - 48)) 0)
  else none

def parse_resource (resource : String) : Except String (String × Nat) :=
  if "READ_STREAM".toList.isPrefixOf resource.toList then
    match py_int_digits (resource.toList.drop 11) with
    | some n => .ok ("STREAM", n)
    | none => .error "ValueError"
  else if "WRITE_STREAM".toList.isPrefixOf resource.toList then
    match py_int_digits (resource.toList.drop 12) with
    | some n => .ok ("STREAM", 3 + n)
    | none => .error "ValueError"
  else
    let resType := (resource.toList.filter Char.isAlpha).asString
    let digits := resource.toList.filter Char.isDigit
    .ok (resType, match py_int_digits digits with | some n => n | none => 0)

/-- Node-name stripping in `calculate_cost` (mapper.py:610-613): a source or
destination ending in `ROW_LC`/`COL_LC` is replaced by `node.split(".")[0]`
(the characters before the first dot). -/
def strip_rowcol (s : String) : String :=
  if "ROW_LC".toList.isSuffixOf s.toList ∨ "COL_LC".toList.isSuffixOf s.toList then
    (s.toList.takeWhile (fun c => c ≠ '.')).asString
  else s

/-- `calculate_cost` (mapper.py:603-623): sum over connections of every
constraint's penalty on the mapped endpoint resources; connections with an
unmapped endpoint contribute nothing. -/
def calculate_cost (mapping : List (String × String)) (connections : List (String × String)) :
    Except String Nat :=
  connections.foldlM
    (fun acc c => do
      let src := strip_rowcol c.1
      let dst := strip_rowcol c.2
      match mapping.lookup src, mapping.lookup dst with
      | some srcRes, some dstRes => do
        let st ← parse_resource srcRes
        let dt ← parse_resource dstRes
        pure (acc + pair_penalty st.1 st.2 dt.1 dt.2)
      | _, _ => pure acc)
    0

/-! ### Claim C1: zero-penalty placements and the admissibility predicates -/

/-- Claim C1 (amended): for every constraint in `Mapper.search`'s constraint
list, a zero penalty implies the admissibility check — except for
`LCtoLCConstraint` and `PEtoPEConstraint`, whose penalties are zero exactly
when the check passes or the two endpoints sit on the same slot index
(distance 0).  In particular, under a "distance 1 or 2" constraint a
placement at slot distance 5 registers a nonzero penalty (5 for LC→LC in
one row, 3 for PE→PE), but a placement at distance 0 registers penalty 0
even though the check fails, so a zero total penalty does not imply
admissibility at distance 0 (contrary to the claim as stated). -/
theorem C1_zero_penalty_amended :
    (∀ st si dt di, lc_to_lc_check st si dt di = true → lc_to_lc_penalty st si dt di = 0) ∧
    (∀ st si dt di, pe_to_pe_check st si dt di = true → pe_to_pe_penalty st si dt di = 0) ∧
    (∀ si di, lc_to_lc_penalty "LC" si "LC" di = 0 ↔
      (lc_to_lc_check "LC" si "LC" di = true ∨ si = di)) ∧
    (∀ si di, pe_to_pe_penalty "PE" si "PE" di = 0 ↔
      (pe_to_pe_check "PE" si "PE" di = true ∨ si = di)) ∧
    (∀ si, pe_to_pe_penalty "PE" si "PE" (si + 5) = 3) ∧
    (∀ r c, c + 5 ≤ 7 → lc_to_lc_penalty "LC" (8 * r + c) "LC" (8 * r + (c + 5)) = 5) ∧
    (∀ st si dt di, lc_to_rowlc_penalty st si dt di = 0 → lc_to_rowlc_check st si dt di = true) ∧
    (∀ st si dt di, lc_to_stream_penalty st si dt di = 0 → lc_to_stream_check st si dt di = true) ∧
    (∀ st si dt di, pe_to_lc_penalty st si dt di = 0 → pe_to_lc_check st si dt di = true) ∧
    (∀ st si dt di, pe_to_stream_penalty st si dt di = 0 → pe_to_stream_check st si dt di = true) ∧
    (∀ st si dt di, rowlc_to_collc_penalty st si dt di = 0 → rowlc_to_collc_check st si dt di = true) := by
  have hLC : ("LC" : String) = "LC" ∧ ("LC" : String) = "LC" := ⟨rfl, rfl⟩
  have hPE : ("PE" : String) = "PE" ∧ ("PE" : String) = "PE" := ⟨rfl, rfl⟩
  refine ⟨?_, ?_, ?_, ?_, ?_, ?_, ?_, ?_, ?_, ?_, ?_⟩
  · intro st si dt di h
    simp only [lc_to_lc_penalty]
    split_ifs with hp
    · rfl
    · rfl
  · intro st si dt di h
    simp only [pe_to_pe_penalty]
    split_ifs with hp hc
    · rfl
    · rw [pe_to_pe_check, if_pos hp, decide_eq_true_eq] at h
      exact absurd h hc
    · rfl
  · intro si di
    by_cases hc : lc_to_lc_check "LC" si "LC" di = true
    · rw [lc_to_lc_penalty, if_pos hLC, if_pos hc]
      exact iff_of_true rfl (Or.inl hc)
    · rw [lc_to_lc_penalty, if_pos hLC, if_neg hc]
      rw [lc_to_lc_check, if_pos hLC] at hc
      simp only [py_abs_sub]
      constructor
      · intro h
        right
        omega
      · intro h
        rcases h with h | h
        · exact absurd h hc
        · subst h
          omega
  · intro si di
    rw [pe_to_pe_penalty, pe_to_pe_check, if_pos hPE, if_pos hPE]
    simp only [py_abs_sub, decide_eq_true_eq]
    split_ifs with hd
    · exact iff_of_true rfl (Or.inl hd)
    · constructor
      · intro h
        right
        omega
      · intro h
        rcases h with h | h
        · exact absurd h hd
        · subst h
          omega
  · intro si
    rw [pe_to_pe_penalty, if_pos hPE]
    simp only [py_abs_sub]
    split_ifs with hd
    · omega
    · omega
  · intro r c hc
    have hcheck : lc_to_lc_check "LC" (8 * r + c) "LC" (8 * r + (c + 5)) = false := by
      rw [lc_to_lc_check, if_pos hLC]
      have h1 : ¬((8 * r + (c + 5)) / 8 = 0 ∧ (8 * r + c) / 8 = 1) := by omega
      have h2 : (8 * r + c) / 8 = (8 * r + (c + 5)) / 8 := by omega
      rw [if_neg h1, if_pos h2]
      simp only [py_abs_sub, decide_eq_false_iff_not]
      omega
    rw [lc_to_lc_penalty, if_pos hLC, hcheck]
    simp only [Bool.false_eq_true, if_false, py_abs_sub]
    omega
  · intro st si dt di h
    rw [lc_to_rowlc_penalty] at h
    rw [lc_to_rowlc_check]
    split_ifs at h ⊢ with hp
    · simp only [decide_eq_true_eq]
      simp only [py_abs_sub] at h ⊢
      omega
    · rfl
  · intro st si dt di h
    rw [lc_to_stream_penalty] at h
    rw [lc_to_stream_check]
    split_ifs at h ⊢ with hp
    · simp only [decide_eq_true_eq]
      simp only [py_abs_sub] at h ⊢
      split_ifs at h with hd
      · exact hd
      · omega
    · rfl
  · intro st si dt di h
    rw [pe_to_lc_penalty] at h
    rw [pe_to_lc_check]
    by_cases hp : st = "PE" ∧ dt = "LC"
    · rw [if_pos hp] at h ⊢
      by_cases h1 : di / 8 ≠ 0
      · rw [if_pos h1] at h
        omega
      · rw [if_neg h1] at h ⊢
        simp only [decide_eq_true_eq]
        split_ifs at h with h2
        · exact h2
        · simp only [py_abs_sub] at h ⊢
          omega
    · rw [if_neg hp] at h ⊢
      by_cases hq : st = "LC" ∧ dt = "PE"
      · rw [if_pos hq] at h ⊢
        by_cases h1 : si / 8 ≠ 0
        · rw [if_pos h1] at h
          omega
        · rw [if_neg h1] at h ⊢
          simp only [decide_eq_true_eq]
          split_ifs at h with h2
          · exact h2
          · simp only [py_abs_sub] at h ⊢
            omega
      · rw [if_neg hq]
  · intro st si dt di h
    rw [pe_to_stream_penalty] at h
    rw [pe_to_stream_check]
    split_ifs at h ⊢ with hp
    · simp only [decide_eq_true_eq]
      simp only [py_abs_sub] at h ⊢
      split_ifs at h with hd
      · exact hd
      · omega
    · rfl
  · intro st si dt di h
    rw [rowlc_to_collc_penalty] at h
    rw [rowlc_to_collc_check]
    by_cases hp : st = "ROW_LC" ∧ dt = "COL_LC"
    · rw [if_pos hp] at h ⊢
      by_cases he : si = di
      · simp [he]
      · rw [if_neg he] at h
        omega
    · rw [if_neg hp] at h ⊢
      by_cases hq : dt = "COL_LC" ∧ st ≠ "ROW_LC"
      · rw [if_pos hq] at h
        omega
      · rw [if_neg hq]

/-- Counterexample to claim C1 as stated: an edge whose two (distinct)
endpoints are placed on the same physical slot — distance 0 — contributes
zero to `calculate_cost` under every constraint in the list, yet the
"distance 1 or 2" admissibility checks (`PEtoPEConstraint.check`,
`LCtoLCConstraint.check`) are false there, so a zero-penalty placement is
reported successful while violating the admissibility predicate, and
distance 0 does not register a nonzero penalty. -/
theorem C1_zero_penalty_counterexample :
    calculate_cost [("u", "PE0"), ("v", "PE0")] [("u", "v")] = .ok 0 ∧
    pe_to_pe_check "PE" 0 "PE" 0 = false ∧
    pair_penalty "PE" 0 "PE" 0 = 0 ∧
    calculate_cost [("u", "LC3"), ("v", "LC3")] [("u", "v")] = .ok 0 ∧
    lc_to_lc_check "LC" 3 "LC" 3 = false ∧
    calculate_cost [("u", "PE0"), ("v", "PE5")] [("u", "v")] = .ok 3 := by
  exact ⟨rfl, rfl, rfl, rfl, rfl, rfl⟩

/-! ## Mapper allocation (src/bitstream/config/mapper.py, Mapper.__init__,
get_type, allocate).  The mapper's mutable attributes are a record; the
`defaultdict(int)` counters are an association list read through a
zero default. -/

/-- Python substring containment `pat in s` on character lists. -/
def has_substr (pat : List Char) : List Char → Bool
  | [] => pat.isEmpty
  | c :: rest => pat.isPrefixOf (c :: rest) || has_substr pat rest

/-- Python `pat in node` on strings. -/
def str_contains (node pat : String) : Bool := has_substr pat.toList node.toList

/-- The mutable state a `Mapper` instance carries (mapper.py:19-53):
`node_to_resource` and `assigned_node` as insertion-ordered association
lists, `resource_counters` as a defaultdict. -/
structure MapperState where
  node_to_resource : List (String × String)
  resource_counters : List (String × Nat)
  nodes : List String
  use_direct_mapping : Bool
  assigned_node : List (String × String)
  deriving DecidableEq

/-- `Mapper.__init__(seed)` (mapper.py:19-53): fresh empty state.  The seed
parameter is accepted but has no effect — the `random.seed(seed)` lines
(mapper.py:50-53) are commented out in the source. -/
def mapper_init (seed : Option Nat) : MapperState :=
  { node_to_resource := []
    resource_counters := []
    nodes := []
    use_direct_mapping := false
    assigned_node := [] }

/-- `self.resource_pools` (mapper.py:22-29). -/
def resource_pools (resType : String) : Option (List String) :=
  if resType = "LC" then some ((List.range 16).map (fun i => "LC" ++ toString i))
  else if resType = "ROW_LC" then some ((List.range 4).map (fun i => "ROW_LC" ++ toString i))
  else if resType = "COL_LC" then some ((List.range 4).map (fun i => "COL_LC" ++ toString i))
  else if resType = "PE" then some ((List.range 8).map (fun i => "PE" ++ toString i))
  else if resType = "READ_STREAM" then
    some ((List.range 3).map (fun i => "READ_STREAM" ++ toString i))
  else if resType = "WRITE_STREAM" then
    some ((List.range 1).map (fun i => "WRITE_STREAM" ++ toString i))
  else none

/-- `Mapper.get_type` (mapper.py:55-79): infer the resource type from the
node-name substrings. -/
def get_type (node : String) : Option String :=
  if str_contains node "DRAM_LC" && str_contains node ".LC" then some "LC"
  else if str_contains node "ROW_LC" then some "ROW_LC"
  else if str_contains node "COL_LC" then some "COL_LC"
  else if str_contains node "PE" && str_contains node ".PE" then some "PE"
  else if "STREAM".toList.isPrefixOf node.toList then some "STREAM"
  else none

/-- Counter read of the `defaultdict(int)` (missing key counts as 0). -/
def counter_get (st : MapperState) (k : String) : Nat :=
  (st.resource_counters.lookup k).getD 0

/-- Counter increment: `self.resource_counters[res_type] += 1`. -/
def counter_inc (st : MapperState) (k : String) : MapperState :=
  { st with resource_counters :=
      if (st.resource_counters.lookup k).isSome then
        st.resource_counters.map (fun p => if p.1 = k then (p.1, p.2 + 1) else p)
      else st.resource_counters ++ [(k, 1)] }

/-- `Mapper.allocate` (mapper.py:171-265).  `extract` stands for the
regex-based `extract_logical_index` (mapper.py:122-168), which only the
direct-mapping branches consult; it is kept as a parameter because every
claim settled here is independent of it.  Returns the assigned resource
name together with the updated state; `RuntimeError`s become `.error`. -/
def allocate (extract : String → Option Nat) (st : MapperState) (node : String)
    (streamType : Option String) : Except String (String × MapperState) :=
  -- Return existing allocation if present (mapper.py:179-181)
  match st.node_to_resource.lookup node with
  | some r => .ok (r, st)
  | none =>
    -- Add node to the list if not already present (mapper.py:183-185)
    let st := { st with nodes := if node ∈ st.nodes then st.nodes else st.nodes ++ [node] }
    match get_type node with
    | none =>
      -- Non-hardware node: GENERIC (mapper.py:189-192)
      .ok ("GENERIC", { st with node_to_resource := st.node_to_resource ++ [(node, "GENERIC")] })
    | some resType0 =>
      -- STREAM refinement (mapper.py:197-229); pool READ_STREAM has 3 entries
      let refined : String × Option Nat :=
        if resType0 = "STREAM" then
          if st.use_direct_mapping then
            match extract node with
            | some li =>
              if li < 3 then ("READ_STREAM", some li) else ("WRITE_STREAM", some (li - 3))
            | none =>
              (if streamType = some "read" then "READ_STREAM"
               else if streamType = some "write" then "WRITE_STREAM"
               else "READ_STREAM", none)
          else
            (if streamType = some "read" then "READ_STREAM"
             else if streamType = some "write" then "WRITE_STREAM"
             else "READ_STREAM", none)
        else (resType0, none)
      match resource_pools refined.1 with
      | none => .error "Unknown resource type"
      | some pool =>
        -- Index determination (mapper.py:236-256)
        let idxSt : Except String (Nat × MapperState) :=
          if st.use_direct_mapping then
            match refined.2 with
            | some idx =>
              if idx ≥ pool.length then .error "Direct mapping failed" else .ok (idx, st)
            | none =>
              match extract node with
              | some li =>
                if li ≥ pool.length then .error "Direct mapping failed" else .ok (li, st)
              | none => .ok (counter_get st refined.1, counter_inc st refined.1)
          else .ok (counter_get st refined.1, counter_inc st refined.1)
        match idxSt with
        | .error e => .error e
        | .ok (idx, st) =>
          -- Pool exhausted check and assignment (mapper.py:258-265)
          if idx ≥ pool.length then .error "pool exhausted"
          else
            .ok (pool.getD idx "",
              { st with node_to_resource := st.node_to_resource ++ [(node, pool.getD idx "")] })

/-! ### Claims C9 and C2: allocate idempotence, and the post-search fill-in
slot collision -/

/-- Claim C9: `Mapper.allocate` is idempotent — for a node already present
in `node_to_resource` it returns the previously assigned resource and the
state unchanged (mapper.py:179-181): no counter is incremented, no slot is
consumed, the mapping is not modified, for any extraction function, mapping
mode and stream-type argument. -/
theorem C9_allocate_idempotent (extract : String → Option Nat) (st : MapperState)
    (node : String) (streamType : Option String) (r : String)
    (h : st.node_to_resource.lookup node = some r) :
    allocate extract st node streamType = .ok (r, st) := by
  rw [allocate, h]

/-- Mapper state as it stands when the post-search fill-in pass runs, for
the star-shaped connection set `LC00 -> LC01, LC02, LC03, LC04, LC05`: the
initial connected-only allocation hands out `LC0..LC5` in first-seen order
(so `resource_counters["LC"] = 6`) at total penalty 12, and the annealing
search returns the zero-penalty `best_mapping` below — which replaces
`node_to_resource` wholesale (mapper.py:954) without reconciling the
counters. -/
def post_search_state : MapperState :=
  { node_to_resource := [("DRAM_LC.LC00", "LC6"), ("DRAM_LC.LC01", "LC4"),
      ("DRAM_LC.LC02", "LC5"), ("DRAM_LC.LC03", "LC7"),
      ("DRAM_LC.LC04", "LC12"), ("DRAM_LC.LC05", "LC13")]
    resource_counters := [("LC", 6)]
    nodes := ["DRAM_LC.LC00", "DRAM_LC.LC01", "DRAM_LC.LC02", "DRAM_LC.LC03",
      "DRAM_LC.LC04", "DRAM_LC.LC05"]
    use_direct_mapping := false
    assigned_node := [] }

/-- The star's directed edges. -/
def star_connections : List (String × String) :=
  [("DRAM_LC.LC00", "DRAM_LC.LC01"), ("DRAM_LC.LC00", "DRAM_LC.LC02"),
   ("DRAM_LC.LC00", "DRAM_LC.LC03"), ("DRAM_LC.LC00", "DRAM_LC.LC04"),
   ("DRAM_LC.LC00", "DRAM_LC.LC05")]

/-- Witness for C9: a concrete already-mapped node. -/
theorem C9_allocate_idempotent_witness :
    post_search_state.node_to_resource.lookup "DRAM_LC.LC00" = some "LC6" ∧
    allocate (fun _ => none) post_search_state "DRAM_LC.LC00" none =
      .ok ("LC6", post_search_state) :=
  ⟨rfl, C9_allocate_idempotent (fun _ => none) post_search_state "DRAM_LC.LC00" none "LC6" rfl⟩

/-- Claim C2 failing run: `post_search_state` is a zero-penalty search
result (so the pipeline reports success and proceeds), yet the fill-in
call `allocate_resources(only_connected_nodes=False)` allocates the
unconnected node `DRAM_LC.LC06` by counter — `resource_counters["LC"] = 6`,
so slot `LC6` (mapper.py:253-263) — ignoring that the search already moved
`DRAM_LC.LC00` onto `LC6`: two distinct nodes end up resolving to the same
real physical slot. -/
theorem C2_fill_in_collision :
    calculate_cost post_search_state.node_to_resource star_connections = .ok 0 ∧
    (allocate (fun _ => none) post_search_state "DRAM_LC.LC06" none).map
      (fun p => (p.1, p.2.node_to_resource.lookup "DRAM_LC.LC00",
        p.2.node_to_resource.lookup "DRAM_LC.LC06")) =
    .ok ("LC6", some "LC6", some "LC6") ∧ "DRAM_LC.LC00" ≠ "DRAM_LC.LC06" := by
  exact ⟨rfl, rfl, by decide⟩

/-! ## Search post-processing (mapper.py:939-952).  Node and resource names
are modelled as their character lists so that name structure (dots,
prefixes, suffixes) can be reasoned about; `best_mapping` is an
insertion-ordered association list whose keys the loop never changes. -/

/-- Python `node.split(".")[0]`: the characters before the first dot. -/
def first_component (k : List Char) : List Char := k.takeWhile (fun c => c ≠ '.')

/-- In-place dict value assignment `best_mapping[key] = v`. -/
def alist_update (m : List (List Char × List Char)) (k v : List Char) :
    List (List Char × List Char) :=
  m.map (fun p => if p.1 = k then (p.1, v) else p)

/-- One iteration of the post-processing loop (mapper.py:941-952) at key
`k`: if `".ROW_LC" in k` and `k`'s resource starts with `ROW_LC`, rewrite
the sibling `<prefix>.COL_LC` (when present) to `COL_LC` followed by
`int(resource[6:])`; a non-numeric resource suffix raises `ValueError`
from `int`. -/
def apply_col_update (m : List (List Char × List Char)) (colNode colRes : List Char) :
    List (List Char × List Char) :=
  match m.lookup colNode with
  | some old => if old ≠ colRes then alist_update m colNode colRes else m
  | none => m

def post_step (m : List (List Char × List Char)) (k : List Char) :
    Except String (List (List Char × List Char)) :=
  if has_substr ".ROW_LC".toList k then
    match m.lookup k with
    | some res =>
      if "ROW_LC".toList.isPrefixOf res then
        match py_int_digits (res.drop 6) with
        | some j =>
          .ok (apply_col_update m (first_component k ++ ".COL_LC".toList)
            ("COL_LC".toList ++ (toString j).toList))
        | none => .error "ValueError"
      else .ok m
    | none => .ok m
  else .ok m

/-- The whole post-processing pass: one `post_step` per key of
`best_mapping`, in insertion order (`for node in best_mapping`,
mapper.py:941). -/
def post_process (m : List (List Char × List Char)) :
    Except String (List (List Char × List Char)) :=
  (m.map Prod.fst).foldlM post_step m

-- helper lemmas

lemma lookup_isSome_iff (m : List (List Char × List Char)) (k : List Char) :
    (m.lookup k).isSome ↔ k ∈ m.map Prod.fst := by
  induction m with
  | nil => simp
  | cons p t ih =>
    obtain ⟨k1, v1⟩ := p
    by_cases h : k = k1
    · subst h
      simp [List.lookup]
    · have hne : (k == k1) = false := beq_false_of_ne h
      simp [List.lookup, hne, ih, h]

lemma lookup_update_ne (m : List (List Char × List Char)) (k v key : List Char)
    (h : key ≠ k) : (alist_update m k v).lookup key = m.lookup key := by
  induction m with
  | nil => rfl
  | cons p t ih =>
    obtain ⟨k1, v1⟩ := p
    simp only [alist_update, List.map_cons]
    by_cases hp : k1 = k
    · rw [if_pos hp]
      have hne : (key == k1) = false := beq_false_of_ne (fun e => h (e.trans hp))
      simp only [List.lookup, hne]
      exact ih
    · rw [if_neg hp]
      simp only [List.lookup]
      cases hbe : key == k1
      · exact ih
      · rfl

lemma lookup_update_self (m : List (List Char × List Char)) (k v : List Char)
    (h : (m.lookup k).isSome) : (alist_update m k v).lookup k = some v := by
  induction m with
  | nil => simp [List.lookup] at h
  | cons p t ih =>
    obtain ⟨k1, v1⟩ := p
    by_cases hp : k1 = k
    · simp only [alist_update, List.map_cons, if_pos hp]
      have : (k == k1) = true := by rw [hp]; exact beq_self_eq_true k
      simp [List.lookup, this]
    · have hne : (k == k1) = false := beq_false_of_ne (fun e => hp e.symm)
      simp only [List.lookup, hne] at h
      simp only [alist_update, List.map_cons]
      rw [if_neg hp]
      simp only [List.lookup, hne]
      exact ih h

lemma keys_update (m : List (List Char × List Char)) (k v : List Char) :
    (alist_update m k v).map Prod.fst = m.map Prod.fst := by
  induction m with
  | nil => rfl
  | cons p t ih =>
    obtain ⟨k1, v1⟩ := p
    simp only [alist_update, List.map_cons] at *
    by_cases hp : k1 = k
    · rw [if_pos hp]
      simpa using ih
    · rw [if_neg hp]
      simpa using ih

lemma isPrefixOf_append (l t : List Char) : l.isPrefixOf (l ++ t) = true := by
  induction l with
  | nil => simp [List.isPrefixOf]
  | cons c cs ih => simp [List.isPrefixOf, ih]

lemma has_substr_append_self (G pat : List Char) : has_substr pat (G ++ pat) = true := by
  induction G with
  | nil =>
    cases pat with
    | nil => rfl
    | cons c t =>
      have h := isPrefixOf_append (c :: t) []
      rw [List.append_nil] at h
      simp [has_substr, h]
  | cons c t ih => simp [has_substr, ih]

lemma rowlc_ne_collc (G p : List Char) : G ++ ".ROW_LC".toList ≠ p ++ ".COL_LC".toList := by
  intro h
  have h2 := List.append_inj' h (by decide)
  exact absurd h2.2 (by decide)

lemma collc_inj (G p : List Char) (h : p ++ ".COL_LC".toList = G ++ ".COL_LC".toList) :
    p = G :=
  (List.append_inj' h rfl).1

lemma first_component_rowlc (G : List Char) (hG : '.' ∉ G) :
    first_component (G ++ ".ROW_LC".toList) = G := by
  induction G with
  | nil => rfl
  | cons c t ih =>
    have hc : c ≠ '.' := fun e => hG (by simp [e])
    have ht : '.' ∉ t := fun e => hG (List.mem_cons_of_mem _ e)
    simp only [first_component, List.cons_append, List.takeWhile_cons]
    rw [if_pos (by simpa using hc)]
    have := ih ht
    rw [first_component] at this
    rw [this]

lemma keys_apply_col (m : List (List Char × List Char)) (c v : List Char) :
    (apply_col_update m c v).map Prod.fst = m.map Prod.fst := by
  rw [apply_col_update]
  cases hlc : m.lookup c with
  | none => rfl
  | some old =>
    dsimp only
    by_cases hne : old ≠ v
    · rw [if_pos hne]
      exact keys_update m c v
    · rw [if_neg hne]

lemma lookup_apply_col_ne (m : List (List Char × List Char)) (c v key : List Char)
    (h : key ≠ c) : (apply_col_update m c v).lookup key = m.lookup key := by
  rw [apply_col_update]
  cases hlc : m.lookup c with
  | none => rfl
  | some old =>
    dsimp only
    by_cases hne : old ≠ v
    · rw [if_pos hne]
      exact lookup_update_ne m c v key h
    · rw [if_neg hne]

lemma lookup_apply_col_self (m : List (List Char × List Char)) (c v : List Char)
    (h : (m.lookup c).isSome) : (apply_col_update m c v).lookup c = some v := by
  rw [apply_col_update]
  cases hlc : m.lookup c with
  | none => rw [hlc] at h; simp at h
  | some old =>
    dsimp only
    by_cases hne : old ≠ v
    · rw [if_pos hne]
      exact lookup_update_self m c v h
    · rw [if_neg hne]
      push_neg at hne
      rw [hlc, hne]

lemma post_step_keys (m m1 : List (List Char × List Char)) (k : List Char)
    (h : post_step m k = .ok m1) : m1.map Prod.fst = m.map Prod.fst := by
  rw [post_step] at h
  repeat' split at h
  all_goals try cases h
  all_goals first | rfl | exact keys_apply_col _ _ _ | simp at h

lemma post_step_lookup_ne (m m1 : List (List Char × List Char)) (k key : List Char)
    (h : post_step m k = .ok m1)
    (hkey : key ≠ first_component k ++ ".COL_LC".toList) :
    m1.lookup key = m.lookup key := by
  rw [post_step] at h
  repeat' split at h
  all_goals try cases h
  all_goals first | rfl | exact lookup_apply_col_ne _ _ _ _ hkey | simp at h

lemma post_step_lookup_cases (m m1 : List (List Char × List Char)) (k key : List Char)
    (h : post_step m k = .ok m1) :
    m1.lookup key = m.lookup key ∨
      (has_substr ".ROW_LC".toList k = true ∧
        key = first_component k ++ ".COL_LC".toList) := by
  by_cases hkey : key = first_component k ++ ".COL_LC".toList
  · by_cases hin : has_substr ".ROW_LC".toList k = true
    · exact Or.inr ⟨hin, hkey⟩
    · left
      rw [post_step, if_neg hin] at h
      cases h
      rfl
  · exact Or.inl (post_step_lookup_ne m m1 k key h hkey)

lemma post_step_at_row_key (m m1 : List (List Char × List Char)) (G ds : List Char) (j : Nat)
    (hG : '.' ∉ G)
    (ha : m.lookup (G ++ ".ROW_LC".toList) = some ("ROW_LC".toList ++ ds))
    (hj : py_int_digits ds = some j)
    (hc : (m.lookup (G ++ ".COL_LC".toList)).isSome)
    (h : post_step m (G ++ ".ROW_LC".toList) = .ok m1) :
    m1.lookup (G ++ ".COL_LC".toList) = some ("COL_LC".toList ++ (toString j).toList) := by
  rw [post_step, if_pos (has_substr_append_self G ".ROW_LC".toList), ha] at h
  dsimp only at h
  rw [if_pos (isPrefixOf_append "ROW_LC".toList ds)] at h
  rw [List.drop_left' (by decide), hj] at h
  dsimp only at h
  rw [first_component_rowlc G hG] at h
  cases h
  exact lookup_apply_col_self m _ _ hc

lemma post_fold_col (G ds : List Char) (j : Nat) (hG : '.' ∉ G)
    (hj : py_int_digits ds = some j) :
    ∀ (L : List (List Char)) (ma m1 : List (List Char × List Char)),
      L.foldlM post_step ma = .ok m1 →
      (∀ k ∈ L, has_substr ".ROW_LC".toList k = true → first_component k = G →
        k = G ++ ".ROW_LC".toList) →
      ma.lookup (G ++ ".ROW_LC".toList) = some ("ROW_LC".toList ++ ds) →
      (ma.lookup (G ++ ".COL_LC".toList)).isSome →
      ((G ++ ".ROW_LC".toList) ∈ L ∨
        ma.lookup (G ++ ".COL_LC".toList) =
          some ("COL_LC".toList ++ (toString j).toList)) →
      m1.lookup (G ++ ".COL_LC".toList) =
        some ("COL_LC".toList ++ (toString j).toList) := by
  intro L
  induction L with
  | nil =>
    intro ma m1 hfold hL ha hc hdisj
    rw [List.foldlM_nil] at hfold
    cases hfold
    rcases hdisj with h | h
    · simp at h
    · exact h
  | cons k L ih =>
    intro ma m1 hfold hL ha hc hdisj
    rw [List.foldlM_cons] at hfold
    cases hstep : post_step ma k with
    | error e =>
      rw [hstep] at hfold
      exact absurd hfold (by simp [Bind.bind, Except.bind])
    | ok mb =>
      rw [hstep] at hfold
      have hfold2 : L.foldlM post_step mb = .ok m1 := hfold
      have ha2 : mb.lookup (G ++ ".ROW_LC".toList) = some ("ROW_LC".toList ++ ds) := by
        rw [post_step_lookup_ne ma mb k _ hstep (rowlc_ne_collc G (first_component k))]
        exact ha
      have hkeys := post_step_keys ma mb k hstep
      have hc2 : (mb.lookup (G ++ ".COL_LC".toList)).isSome := by
        rw [lookup_isSome_iff, hkeys, ← lookup_isSome_iff]
        exact hc
      have hL2 : ∀ k2 ∈ L, has_substr ".ROW_LC".toList k2 = true →
          first_component k2 = G → k2 = G ++ ".ROW_LC".toList :=
        fun k2 hk2 => hL k2 (List.mem_cons_of_mem _ hk2)
      by_cases hkn : k = G ++ ".ROW_LC".toList
      · subst hkn
        have hcol := post_step_at_row_key ma mb G ds j hG ha hj hc hstep
        exact ih mb m1 hfold2 hL2 ha2 hc2 (Or.inr hcol)
      · rcases hdisj with hmem | hval
        · rcases List.mem_cons.mp hmem with he | hmem2
          · exact absurd he.symm hkn
          · exact ih mb m1 hfold2 hL2 ha2 hc2 (Or.inl hmem2)
        · have hpres : mb.lookup (G ++ ".COL_LC".toList) =
              some ("COL_LC".toList ++ (toString j).toList) := by
            rcases post_step_lookup_cases ma mb k _ hstep with hsame | ⟨hin, hkeyeq⟩
            · rw [hsame]
              exact hval
            · have hfc : first_component k = G :=
                collc_inj G (first_component k) hkeyeq.symm
              exact absurd (hL k (List.mem_cons_self k L) hin hfc) hkn
          exact ih mb m1 hfold2 hL2 ha2 hc2 (Or.inr hpres)

/-- Claim C10: after the annealing search returns, the post-processing pass
(mapper.py:939-952) enforces the row/column sibling correspondence: if the
returned mapping sends node `<G>.ROW_LC` (with `G` the dot-free group
prefix, and `<G>.ROW_LC` the only iterated key of the form that matches the
loop's `".ROW_LC" in node` test with first component `G`) to a physical
slot `ROW_LC<j>`, and the sibling `<G>.COL_LC` is also in the mapping, then
in the post-processed mapping the sibling is mapped to `COL_LC<j>` — also
when the best mapping still has nonzero penalty, since the pass runs
unconditionally. -/
theorem C10_row_col_postprocessing
    (m m1 : List (List Char × List Char)) (G ds : List Char) (j : Nat)
    (hG : '.' ∉ G)
    (hrow : m.lookup (G ++ ".ROW_LC".toList) = some ("ROW_LC".toList ++ ds))
    (hj : py_int_digits ds = some j)
    (huniq : ∀ k ∈ m.map Prod.fst, has_substr ".ROW_LC".toList k = true →
      first_component k = G → k = G ++ ".ROW_LC".toList)
    (hcol : (m.lookup (G ++ ".COL_LC".toList)).isSome)
    (hpp : post_process m = .ok m1) :
    m1.lookup (G ++ ".COL_LC".toList) = some ("COL_LC".toList ++ (toString j).toList) := by
  have hmem : (G ++ ".ROW_LC".toList) ∈ m.map Prod.fst :=
    (lookup_isSome_iff m _).mp (by rw [hrow]; rfl)
  exact post_fold_col G ds j hG hj (m.map Prod.fst) m m1 hpp huniq hrow hcol (Or.inl hmem)

def c10_map : List (List Char × List Char) :=
  [("Group0.ROW_LC".toList, "ROW_LC2".toList),
   ("Group0.COL_LC".toList, "COL_LC0".toList),
   ("Group1.ROW_LC".toList, "ROW_LC0".toList),
   ("Group1.COL_LC".toList, "COL_LC1".toList)]

def c10_result : List (List Char × List Char) :=
  [("Group0.ROW_LC".toList, "ROW_LC2".toList),
   ("Group0.COL_LC".toList, "COL_LC2".toList),
   ("Group1.ROW_LC".toList, "ROW_LC0".toList),
   ("Group1.COL_LC".toList, "COL_LC0".toList)]

/-- Witness for C10: a four-entry mapping in which `Group0.ROW_LC` sits on
`ROW_LC2` while `Group0.COL_LC` initially sits on `COL_LC0`; the pass
rewrites the sibling to `COL_LC2`. -/
theorem C10_row_col_postprocessing_witness :
    c10_result.lookup ("Group0".toList ++ ".COL_LC".toList) =
      some ("COL_LC".toList ++ (toString 2).toList) :=
  C10_row_col_postprocessing c10_map c10_result "Group0".toList "2".toList 2
    (by decide) rfl rfl (by decide) rfl rfl

/-! ## Bitstream assembly (src/bitstream/parse.py) -/

/-- `MODULE_CFG_CHUNK_SIZES` (parse.py:32). -/
def module_cfg_chunk_sizes : List Nat := [1, 1, 1, 2, 10, 8, 1, 1, 1, 1, 1, 4]

/-- `MODULE_ID_TO_MASK` (parse.py:33). -/
def module_id_to_mask : List Nat := [0, 0, 0, 0, 1, 1, 1, 1, 2, 3, 3, 3]

/-- Python `[config[i:i + chunk_size] for i in range(0, len(config), chunk_size)]`
(parse.py:57).  A zero step would raise `ValueError` in `range`; `split_config`
guards it out, so the `cs = 0` branch is never reached. -/
def chunk_list (cs : Nat) (l : List Bool) : List (List Bool) :=
  if h : l = [] ∨ cs = 0 then []
  else l.take cs :: chunk_list cs (l.drop cs)
termination_by l.length
decreasing_by
  simp only [List.length_drop]
  push_neg at h
  have h1 : 0 < l.length := List.length_pos.mpr h.1
  omega

/-- `split_config` (parse.py:35-58): an empty bit string yields no chunks;
otherwise the string is cut into `MODULE_CFG_CHUNK_SIZES[module_id]` chunks
of `len // num_chunks` bits each (one single chunk when the string is
shorter than the chunk count).  Python would raise `IndexError` for a
module id outside 0..11; only those ids arise. -/
def split_config (config : List Bool) (module_id : Nat) : List (List Bool) :=
  if config.isEmpty then []
  else
    let numChunks := module_cfg_chunk_sizes.getD module_id 0
    if numChunks = 0 then []
    else
      let chunkSize := config.length / numChunks
      if chunkSize = 0 then [config]
      else chunk_list chunkSize config

/-- Per-entry emission in `generate_bitstream` (parse.py:278-286): an empty
or all-zero configuration contributes `MODULE_CFG_CHUNK_SIZES[mid]` zero
bits (the disabled placeholder); otherwise each chunk is prefixed with a
single `'1'` enable bit. -/
def emit_entry (module_id : Nat) (config : List Bool) : List Bool :=
  if config.isEmpty || config.all (fun b => !b) then
    List.replicate (module_cfg_chunk_sizes.getD module_id 0) false
  else
    ((split_config config module_id).map (fun c => true :: c)).flatten

/-- `generate_bitstream` (parse.py:274-290): the mask bits, then every
entry whose module group is enabled, then zero padding to the next 64-bit
boundary. -/
def generate_bitstream (config_mask : List Bool) (entries : List (Nat × List Bool)) :
    List Bool :=
  let body := entries.foldl
    (fun acc e =>
      if config_mask.getD (module_id_to_mask.getD e.1 0) false then
        acc ++ emit_entry e.1 e.2
      else acc)
    config_mask
  body ++ List.replicate ((64 - body.length % 64) % 64) false

lemma chunk_list_flatten (cs : Nat) (hcs : cs ≠ 0) (l : List Bool) :
    (chunk_list cs l).flatten = l := by
  have hgen : ∀ (n : Nat) (l : List Bool), l.length = n → (chunk_list cs l).flatten = l := by
    intro n
    induction n using Nat.strong_induction_on with
    | _ n ih =>
      intro l hn
      rw [chunk_list]
      split_ifs with h
      · rcases h with h | h
        · simp [h]
        · exact absurd h hcs
      · push_neg at h
        have hlt : (l.drop cs).length < n := by
          subst hn
          simp only [List.length_drop]
          have := List.length_pos.mpr h.1
          omega
        simp only [List.flatten_cons]
        rw [ih _ hlt _ rfl]
        exact List.take_append_drop cs l
  exact hgen l.length l rfl

lemma chunk_list_exact (cs : Nat) (hcs : cs ≠ 0) :
    ∀ (k : Nat) (l : List Bool), l.length = cs * k →
      (chunk_list cs l).length = k ∧ ∀ c ∈ chunk_list cs l, c.length = cs := by
  intro k
  induction k with
  | zero =>
    intro l hl
    have : l = [] := List.eq_nil_of_length_eq_zero (by omega)
    subst this
    rw [chunk_list]
    simp
  | succ k ih =>
    intro l hl
    have hpos : 0 < cs * (k + 1) := Nat.mul_pos (Nat.pos_of_ne_zero hcs) (Nat.succ_pos k)
    have hne : l ≠ [] := by
      intro e
      subst e
      simp at hl
      omega
    rw [chunk_list, dif_neg (by push_neg; exact ⟨hne, hcs⟩)]
    have hdl : (l.drop cs).length = cs * k := by
      simp only [List.length_drop]
      rw [hl, Nat.mul_succ]
      omega
    refine ⟨?_, ?_⟩
    · simp only [List.length_cons]
      rw [(ih _ hdl).1]
    · intro c hc
      rcases List.mem_cons.mp hc with he | hmem
      · subst he
        rw [List.length_take]
        have : cs ≤ l.length := by
          rw [hl, Nat.mul_succ]
          omega
        omega
      · exact (ih _ hdl).2 c hmem

/-- Claim C4: assembler chunking.  (a) An empty or all-zero configuration
emits exactly `C = MODULE_CFG_CHUNK_SIZES[mid]` zero bits (the disabled
placeholder).  (b) Otherwise, when `C` divides the configuration length
(the implementer invariant), `split_config` cuts it into exactly `C`
equal-length chunks whose concatenation reconstructs the configuration, and
the entry is emitted as those chunks each prefixed by a single enable bit.
(c) The final stream is zero-padded to a multiple of 64 bits. -/
theorem C4_assembler_chunking :
    (∀ mid config, config.isEmpty = true ∨ config.all (fun b => !b) = true →
      emit_entry mid config =
        List.replicate (module_cfg_chunk_sizes.getD mid 0) false) ∧
    (∀ mid config, mid < 12 → config ≠ [] → config.all (fun b => !b) = false →
      module_cfg_chunk_sizes.getD mid 0 ∣ config.length →
      (split_config config mid).length = module_cfg_chunk_sizes.getD mid 0 ∧
      (∀ c ∈ split_config config mid,
        c.length = config.length / module_cfg_chunk_sizes.getD mid 0) ∧
      (split_config config mid).flatten = config ∧
      emit_entry mid config =
        ((split_config config mid).map (fun c => true :: c)).flatten) ∧
    (∀ config_mask entries, (generate_bitstream config_mask entries).length % 64 = 0) := by
  refine ⟨?_, ?_, ?_⟩
  · intro mid config h
    rw [emit_entry, if_pos]
    rcases h with h | h <;> simp [h]
  · intro mid config hmid hne hnz hdvd
    set C := module_cfg_chunk_sizes.getD mid 0 with hC
    have hCpos : 0 < C := by
      rw [hC]
      interval_cases mid <;> decide
    have hlenpos : 0 < config.length := List.length_pos.mpr hne
    have hCle : C ≤ config.length := Nat.le_of_dvd hlenpos hdvd
    have hcs : config.length / C ≠ 0 := by
      have := Nat.div_pos hCle hCpos
      omega
    have hsplit : split_config config mid = chunk_list (config.length / C) config := by
      rw [split_config, if_neg (by simp [hne]), ← hC, if_neg (by omega), if_neg hcs]
    have hmul : config.length = (config.length / C) * C := (Nat.div_mul_cancel hdvd).symm
    have hexact := chunk_list_exact (config.length / C) hcs C config hmul
    refine ⟨?_, ?_, ?_, ?_⟩
    · rw [hsplit]; exact hexact.1
    · intro c hc
      rw [hsplit] at hc
      exact hexact.2 c hc
    · rw [hsplit]; exact chunk_list_flatten _ hcs config
    · rw [emit_entry, if_neg]
      simp [hne, hnz]
  · intro config_mask entries
    rw [generate_bitstream]
    simp only [List.length_append, List.length_replicate]
    omega

/-! ## Config-module values, emptiness and field encoding
(src/bitstream/config/base.py, src/bitstream/index.py).  Stored field
values are Python objects: `None`, bools, ints, strings, `Connect`
references and lists; a `Connect` carries the raw source value and the
referencing module's node name, and converting it to an int computes the
topology-relative index (which needs global resolution state, abstracted
here as the `relIdx` parameter). -/

inductive PyVal where
  | vNone
  | vBool (b : Bool)
  | vInt (n : Int)
  | vStr (s : String)
  | vConnect (src : PyVal) (dst : String)
  | vList (elems : List PyVal)

/-- Python truthiness (`if x:`): `None`, `False`, `0`, `""` and `[]` are
falsy; a `Connect` object is always truthy. -/
def truthy : PyVal → Bool
  | .vNone => false
  | .vBool b => b
  | .vInt n => decide (n ≠ 0)
  | .vStr s => !s.toList.isEmpty
  | .vConnect _ _ => true
  | .vList l => !l.isEmpty

/-- Python `v is None or v == 0` over stored field values (base.py:46):
`False == 0` is true in Python; strings, lists and `Connect` objects never
equal `0`. -/
def is_none_or_zero : PyVal → Bool
  | .vNone => true
  | .vBool b => !b
  | .vInt n => decide (n = 0)
  | .vStr _ => false
  | .vConnect _ _ => false
  | .vList _ => false

/-- A config module for `is_empty` (base.py:34-46): either a leaf carrying
its stored `values`, or a composite carrying `submodules`; both carry the
`_is_empty` mark set by `mark_empty`.  A composite whose `submodules` list
is empty falls through to the value check on its (empty) `values` dict and
reports empty, which the `comp` equation also yields. -/
inductive CfgModule where
  | leaf (marked : Bool) (values : List PyVal)
  | comp (marked : Bool) (children : List CfgModule)

mutual
/-- `BaseConfigModule.is_empty` (base.py:34-46): an explicit mark wins;
a composite is empty when all children are; a leaf when every stored value
is `None` or `0` (vacuously so for no values). -/
def is_empty : CfgModule → Bool
  | .leaf marked values => marked || values.all is_none_or_zero
  | .comp marked children => marked || is_empty_all children

/-- `all(sm.is_empty() for sm in self.submodules)` (base.py:41). -/
def is_empty_all : List CfgModule → Bool
  | [] => true
  | c :: cs => is_empty c && is_empty_all cs
end

lemma is_empty_all_eq (cs : List CfgModule) : is_empty_all cs = cs.all is_empty := by
  induction cs with
  | nil => rfl
  | cons c t ih => simp [is_empty_all, ih, List.all_cons]

/-- Claim C5: the emptiness law.  For an unmarked leaf, `is_empty` is true
iff every stored value is `None` or `0`; a leaf with a non-`None`, nonzero
stored value reports non-empty; an unmarked composite is empty iff every
child is; and an explicit `mark_empty` always wins. -/
theorem C5_emptiness_law :
    (∀ vs, is_empty (.leaf false vs) = true ↔ ∀ v ∈ vs, is_none_or_zero v = true) ∧
    (∀ vs v, v ∈ vs → is_none_or_zero v = false → is_empty (.leaf false vs) = false) ∧
    (∀ cs, is_empty (.comp false cs) = true ↔ ∀ c ∈ cs, is_empty c = true) ∧
    (∀ vs, is_empty (.leaf true vs) = true) ∧
    (∀ cs, is_empty (.comp true cs) = true) := by
  refine ⟨?_, ?_, ?_, ?_, ?_⟩
  · intro vs
    simp [is_empty, List.all_eq_true]
  · intro vs v hv hnz
    simp only [is_empty, Bool.false_or]
    rw [← Bool.not_eq_true]
    simp only [List.all_eq_true]
    intro hall
    rw [hall v hv] at hnz
    cases hnz
  · intro cs
    simp [is_empty, is_empty_all_eq, List.all_eq_true]
  · intro vs
    simp [is_empty]
  · intro cs
    simp [is_empty]

/-- Python `int.bit_length()` of a possibly negative int (bit length of the
absolute value). -/
def py_bit_length (n : Int) : Nat := nat_bit_length n.natAbs

/-- The `src_id` field mapper of `DramLoopControlConfig.FIELD_MAP`
(loop.py:11): `lambda self, x: Connect(x, self.id) if x else None` — a
truthy value mints a `Connect` scoped to the module's own node name, a
falsy one stores `None` and mints nothing. -/
def src_id_mapper (selfId : String) (x : PyVal) : PyVal :=
  if truthy x then .vConnect x selfId else .vNone

/-- A `FIELD_MAP` transform: one-argument (applied to the raw value) or
two-argument (needs the module, `mapper.__code__.co_argcount == 2`). -/
inductive FieldMapperKind where
  | one (f : PyVal → PyVal)
  | two (f : String → PyVal → PyVal)

/-- `isinstance(val, Connect)`. -/
def is_connect : PyVal → Bool
  | .vConnect _ _ => true
  | _ => false

/-- `to_int` inside `_encode_list` (base.py:96-101): `None` counts as 0;
`int(x)` otherwise.  Converting a `Connect` forces resolution (flag true)
and yields its relative index; a digit string parses; a list raises
`TypeError`. -/
def encode_to_int (relIdx : PyVal → String → Int) : PyVal → Except String (Int × Bool)
  | .vNone => .ok (0, false)
  | .vBool b => .ok (if b then 1 else 0, false)
  | .vInt n => .ok (n, false)
  | .vConnect s d => .ok (relIdx s d, true)
  | .vStr s =>
    match py_int_digits s.toList with
    | some n => .ok ((n : Int), false)
    | none => .error "ValueError"
  | .vList _ => .error "TypeError"

/-- `format(v, f"0{w}b")` for a non-negative `v`: the binary digits of `v`,
zero-padded on the left to at least `w` characters, MSB first. -/
def bin_digits (v w : Nat) : List Bool :=
  let bl := max w (max 1 (nat_bit_length v))
  (List.range bl).map (fun i => v.testBit (bl - 1 - i))

/-- `BaseConfigModule._encode_list` (base.py:92-114): convert every element
with `to_int`, pack each into `max 1 (width // len)` bits, join, and emit
the joined string in 128-bit chunks.  A missing width or an empty list
raises (`ValueError` / `ZeroDivisionError` from `width // len`); a negative
element would put a `-` sign into the binary string and make the chunk
re-parse `int(sub, 2)` raise, so it is modelled as that error. -/
def encode_list (relIdx : PyVal → String → Int) (vals : List PyVal)
    (width : Option Nat) : Except String (List (Int × Nat) × Bool) := do
  let conv ← vals.mapM (encode_to_int relIdx)
  match width with
  | none => .error "List encoding requires width"
  | some w =>
    if vals.length = 0 then .error "ZeroDivisionError"
    else if conv.any (fun p => p.1 < 0) then .error "ValueError"
    else
      let bpe := max 1 (w / vals.length)
      let binStr := (conv.map (fun p => bin_digits p.1.toNat bpe)).flatten
      let chunks := chunk_list 128 binStr
      .ok (chunks.map (fun c => ((digits_value (c.map (fun b => if b then 1 else 0)) : Nat),
        c.length)), conv.any (·.2))

/-- `BaseConfigModule._encode_field` (base.py:116-137): apply the mapper
(a two-argument mapper is skipped when the value is already a `Connect`
from `from_json`), then resolve the value to `(value, width)` pairs:
`None` → one zero of the declared width (or width 1); ints/bools and
`__int__`-bearing objects → one pair of the declared width (or the bit
length), forcing resolution for a `Connect`; lists → `_encode_list`;
anything else raises `TypeError`.  The returned flag records whether a
`Connect` was forced to an integer (which invokes `resolve_all` when the
symbol table is unresolved, index.py:464-470). -/
def encode_field (relIdx : PyVal → String → Int) (selfId : String)
    (mapper : Option FieldMapperKind) (val : PyVal) (width : Option Nat) :
    Except String (List (Int × Nat) × Bool) :=
  let val := match mapper with
    | some (.two f) => if is_connect val then val else f selfId val
    | some (.one f) => f val
    | none => val
  match val with
  | .vNone => .ok ([(0, width.getD 1)], false)
  | .vBool b =>
    .ok ([((if b then 1 else 0 : Int),
      width.getD (max (py_bit_length (if b then 1 else 0)) 1))], false)
  | .vInt n => .ok ([(n, width.getD (max (py_bit_length n) 1))], false)
  | .vConnect s d =>
    .ok ([(relIdx s d, width.getD (max (py_bit_length (relIdx s d)) 1))], true)
  | .vStr _ => .error "TypeError"
  | .vList l => encode_list relIdx l width

/-- Claim C6: a node-reference field whose value is absent — missing from
the input (the stored default `0`) or falsy so `from_json` minted no
`Connect` (stored `None`) — encodes as one zero of the field's declared
width, raises no error, and never forces symbol resolution, whatever the
resolution state (`relIdx`) is.  Instantiated with the `src_id` mapper of
`DramLoopControlConfig.FIELD_MAP` (declared width 4 in loop.py:11). -/
theorem C6_absent_reference_encodes_zero (relIdx : PyVal → String → Int)
    (selfId : String) (v : PyVal) (w : Nat) (hfalsy : truthy v = false) :
    encode_field relIdx selfId (some (.two src_id_mapper)) v (some w) =
      .ok ([(0, w)], false) := by
  have hnc : is_connect v = false := by
    cases v <;> first | rfl | (simp [truthy] at hfalsy)
  simp only [encode_field, hnc, Bool.false_eq_true, if_false, src_id_mapper, hfalsy]
  rfl

/-- Witness for C6: the `src_id` field of a DRAM loop control at its
declared width 4, with the value absent (default `0`) and with it stored as
`None`, under an arbitrary concrete resolution map. -/
theorem C6_absent_reference_encodes_zero_witness :
    truthy (.vInt 0) = false ∧ truthy .vNone = false ∧
    encode_field (fun _ _ => 7) "DRAM_LC.LC00" (some (.two src_id_mapper))
      (.vInt 0) (some 4) = .ok ([(0, 4)], false) ∧
    encode_field (fun _ _ => 7) "DRAM_LC.LC00" (some (.two src_id_mapper))
      .vNone (some 4) = .ok ([(0, 4)], false) :=
  ⟨rfl, rfl,
    C6_absent_reference_encodes_zero (fun _ _ => 7) "DRAM_LC.LC00" (.vInt 0) 4 rfl,
    C6_absent_reference_encodes_zero (fun _ _ => 7) "DRAM_LC.LC00" .vNone 4 rfl⟩

/-! ## Randomized search and the seed parameter (src/bitstream/parse.py
init_modules, src/bitstream/config/mapper.py Mapper.search).  Every call
that would apply the seed — `random.seed(seed)` in `Mapper.__init__`
(mapper.py:50-53), in `Mapper.search` (mapper.py:542-545) and in
`init_modules` (parse.py:87-90 and parse.py:163-165) — is commented out,
so the annealing search draws from the process-global random stream
unchanged, whatever seed is passed. -/

/-- The random stream `Mapper.search` consumes, as a function of the seed
argument and the global generator state: the seed is never applied, so the
stream is the global one. -/
def search_rng_stream (seed : Option Nat) (globalStream : Nat → ℚ) : Nat → ℚ :=
  globalStream

/-- The three proposal kinds of the annealing loop (mapper.py:694-811). -/
inductive MoveKind where
  | reassign
  | repair
  | swapMove
  deriving DecidableEq

/-- Proposal selection from the draw `r = random.random()`
(mapper.py:695-717, 804): below 0.4 a reassign-to-unused move, between 0.4
and 0.4 + repair_prob a targeted repair, otherwise a swap.  The float
literals are exact small decimals, modelled as rationals. -/
def choose_move_kind (r repair_prob : ℚ) : MoveKind :=
  if r < 2/5 then .reassign
  else if r < 2/5 + repair_prob then .repair
  else .swapMove

/-- Claim C7 (code bug evidence): the pipeline ignores the explicit seed.
`Mapper.__init__` produces the same state for every seed, the random
stream consumed by the search is the untouched global stream for every
seed, and the search's behaviour genuinely depends on that stream (three
different draws select three different proposal kinds at the default
`repair_prob = 0.2`).  Hence byte-identical reruns are not guaranteed by
passing the same seed, contrary to the claim and to the docstrings. -/
theorem C7_seed_never_applied :
    (∀ s1 s2 : Option Nat, mapper_init s1 = mapper_init s2) ∧
    (∀ (s1 s2 : Option Nat) (g : Nat → ℚ), search_rng_stream s1 g = search_rng_stream s2 g) ∧
    choose_move_kind (3/10) (1/5) = .reassign ∧
    choose_move_kind (1/2) (1/5) = .repair ∧
    choose_move_kind (9/10) (1/5) = .swapMove := by
  refine ⟨fun _ _ => rfl, fun _ _ _ => rfl, ?_, ?_, ?_⟩
  · rw [choose_move_kind, if_pos (by norm_num)]
  · rw [choose_move_kind, if_neg (by norm_num), if_pos (by norm_num)]
  · rw [choose_move_kind, if_neg (by norm_num), if_neg (by norm_num)]
